import Mathlib

/-!
Verification of the retry-and-poll orchestration layer of the wavespeed
JavaScript SDK. The definitions below are shallow embeddings of the
TypeScript code in src/api/client.ts (class Client) and src/index.ts
(class WaveSpeed): HTTP traffic and the clock are abstracted as explicit
input streams, and every loop takes an explicit fuel argument equal to the
bound the code enforces. Results record how many HTTP calls were issued
and which backoff sleeps were requested, so claims about call counts and
retry schedules are provable.
-/

/-! ## String utilities: JS String.prototype.includes and toLowerCase -/

/-- Does the character list start with the pattern list. -/
def charsStartWith : List Char → List Char → Bool
  | _, [] => true
  | [], _ :: _ => false
  | c :: cs, p :: ps => c == p && charsStartWith cs ps

/-- Does the pattern occur as a contiguous run in the character list. -/
def charsIncludes (pat : List Char) : List Char → Bool
  | [] => pat.isEmpty
  | c :: rest => charsStartWith (c :: rest) pat || charsIncludes pat rest

/-- Model of the JS test s.includes(pat). -/
def strIncludes (s pat : String) : Bool :=
  charsIncludes pat.data s.data

/-- ASCII lower-casing of one character, as JS toLowerCase acts on ASCII. -/
def lowerChar (c : Char) : Char :=
  if 65 ≤ c.toNat ∧ c.toNat ≤ 90 then Char.ofNat (c.toNat + 32) else c

/-- Model of the JS call s.toLowerCase() on ASCII strings. -/
def strToLower (s : String) : String :=
  ⟨s.data.map lowerChar⟩

/-! ## Errors and JSON-shaped data -/

/-- A thrown JS Error, reduced to its name and message. -/
structure JsError where
  name : String
  msg : String
deriving DecidableEq, Repr

/-- Model of JS Error.prototype.toString: name, colon, space, message. -/
def JsError.toStr (e : JsError) : String :=
  e.name ++ ": " ++ e.msg

/-- Model of the JS expression x || dflt on an optional string field:
the default is used when the field is absent or the empty string. -/
def jsOrStr (x : Option String) (dflt : String) : String :=
  match x with
  | none => dflt
  | some s => if s = "" then dflt else s

/-- The data object of a prediction response, with every field optional as
in the dynamically typed source. -/
structure JobData where
  id : Option String := none
  status : Option String := none
  outputs : Option (List String) := none
  error : Option String := none
deriving DecidableEq, Repr

/-- The empty data object, used for the JS fallback data || {}. -/
def JobData.empty : JobData := {}

/-- JS response.ok: the status is in the 2xx range. -/
def respOk (status : ℕ) : Prop := 200 ≤ status ∧ status < 300

instance (s : ℕ) : Decidable (respOk s) := by unfold respOk; infer_instance

/-! ## Client.wait: the poll loop of Client._wait in src/api/client.ts

The loop is driven by a stream of successfully fetched job states
(fetches k = parsed data of the k-th GET) and a clock (times k = elapsed
seconds when tick k starts). The fuel bounds the number of ticks modelled;
every theorem supplies enough fuel for the scenario it describes. The
inter-poll sleep does not affect which fetches happen, so it is not
recorded. -/

namespace Client

/-- Message of the overall-timeout error thrown by Client.wait. -/
def waitTimeoutMsg (timeout : ℚ) (requestId : String) : String :=
  "Prediction timed out after " ++ toString timeout ++ " seconds (task_id: "
    ++ requestId ++ ")"

/-- Message of the terminal-failure error thrown by Client.wait. -/
def waitFailMsg (requestId err : String) : String :=
  "Prediction failed (task_id: " ++ requestId ++ "): " ++ err

/-- Outcome of the poll loop; each constructor records how many fetches
were issued before the loop stopped. -/
inductive WaitRes where
  | completed (outputs : List String) (fetches : ℕ)
  | failed (msg : String) (fetches : ℕ)
  | timedOut (msg : String) (fetches : ℕ)
  | fuelOut (fetches : ℕ)
deriving DecidableEq, Repr

/-- The deadline test done at the top of every tick: some t when an overall
timeout t is configured and already reached, none otherwise. -/
def waitDeadlineHit (timeout : Option ℚ) (now : ℚ) : Option ℚ :=
  match timeout with
  | some t => if t ≤ now then some t else none
  | none => none

/-- One tick per fuel unit: check the overall deadline first, then fetch,
then branch on the fetched status exactly as the source does. -/
def waitGo (requestId : String) (timeout : Option ℚ) (fetches : ℕ → JobData)
    (times : ℕ → ℚ) : ℕ → ℕ → WaitRes
  | 0, k => .fuelOut k
  | fuel + 1, k =>
    match waitDeadlineHit timeout (times k) with
    | some t => .timedOut (waitTimeoutMsg t requestId) k
    | none =>
      let d := fetches k
      if d.status = some "completed" then
        .completed (d.outputs.getD []) (k + 1)
      else if d.status = some "failed" then
        .failed (waitFailMsg requestId (jsOrStr d.error "Unknown error")) (k + 1)
      else
        waitGo requestId timeout fetches times fuel (k + 1)

/-- Entry point of the poll loop, starting at tick 0. -/
def wait (requestId : String) (timeout : Option ℚ) (fetches : ℕ → JobData)
    (times : ℕ → ℚ) (fuel : ℕ) : WaitRes :=
  waitGo requestId timeout fetches times fuel 0

/-- Number of fetches recorded in a wait outcome. -/
def WaitRes.calls : WaitRes → ℕ
  | .completed _ k => k
  | .failed _ k => k
  | .timedOut _ k => k
  | .fuelOut k => k

/-- A fetched state on which the loop keeps polling. -/
def nonterminal (d : JobData) : Prop :=
  d.status ≠ some "completed" ∧ d.status ≠ some "failed"

end Client

/-- Example fetch stream for the wait-loop witnesses: processing twice,
then completed with one output. -/
def exFetchesCompleted : ℕ → JobData := fun k =>
  if k < 2 then { status := some "processing" }
  else { status := some "completed", outputs := some ["https://out/u.png"] }

/-- Example fetch stream: processing twice, then failed without an error
field. -/
def exFetchesFailed : ℕ → JobData := fun k =>
  if k < 2 then { status := some "processing" }
  else { status := some "failed" }

/-! ## WaveSpeed.fetchWithTimeout: the connection-retry wrapper in
src/index.ts

One outbound attempt either produces a response with some status or makes
fetch throw an error with some name (AbortError for the deadline,
TypeError for network failure). The loop retries per the shouldRetry
predicate for responses and, in the catch branch, only for retry-eligible
error names on GET requests. -/

namespace WaveSpeed

/-- Outcome of a single transport attempt. -/
inductive TransportOutcome where
  | resp (status : ℕ)
  | err (name : String)
deriving DecidableEq, Repr

/-- The shouldRetry closure of fetchWithTimeout: 429, or 5xx on GET. -/
def shouldRetry (method : String) (status : ℕ) : Prop :=
  status = 429 ∨ (method = "GET" ∧ 500 ≤ status)

instance (m : String) (s : ℕ) : Decidable (shouldRetry m s) := by
  unfold shouldRetry; infer_instance

/-- Error names the catch branch of fetchWithTimeout treats as retriable:
the abort fired by the per-call deadline, and the TypeError a network
failure raises. -/
def retryableErrName (name : String) : Prop :=
  name = "AbortError" ∨ name = "TypeError"

instance (n : String) : Decidable (retryableErrName n) := by
  unfold retryableErrName; infer_instance

/-- Result of fetchWithTimeout; attempts counts the HTTP calls issued. -/
inductive FetchResult where
  | response (status : ℕ) (attempts : ℕ)
  | thrown (name : String) (attempts : ℕ)
  | fuelOut (attempts : ℕ)
deriving DecidableEq, Repr

/-- The retry loop of fetchWithTimeout; k is the current retryCount, one
fuel unit per attempt, and the loop runs at most maxRetriesVal + 1
attempts. -/
def fetchGo (method : String) (maxRetriesVal : ℕ) (w : ℕ → TransportOutcome) :
    ℕ → ℕ → FetchResult
  | 0, k => .fuelOut k
  | fuel + 1, k =>
    match w k with
    | .resp s =>
      if respOk s ∨ ¬ shouldRetry method s ∨ maxRetriesVal ≤ k then
        .response s (k + 1)
      else fetchGo method maxRetriesVal w fuel (k + 1)
    | .err name =>
      if retryableErrName name ∧ k < maxRetriesVal ∧ method = "GET" then
        fetchGo method maxRetriesVal w fuel (k + 1)
      else .thrown name (k + 1)

/-- Entry point of the wrapper: retryCount starts at zero. -/
def fetchWithTimeout (method : String) (maxRetriesVal : ℕ)
    (w : ℕ → TransportOutcome) : FetchResult :=
  fetchGo method maxRetriesVal w (maxRetriesVal + 1) 0

/-- Number of attempts recorded in a fetch result. -/
def FetchResult.attempts : FetchResult → ℕ
  | .response _ k => k
  | .thrown _ k => k
  | .fuelOut k => k

end WaveSpeed

/-! ## Client.submit and Client.getResult: the connection-retry loops in
src/api/client.ts

Each attempt either sees fetch reject with an error or resolve to a
response; the parsed pieces the code inspects are carried explicitly. The
header construction runs before the fetch of every attempt, so an empty
API key raises inside the try block with no HTTP call issued. -/

namespace Client

/-- Parsed pieces of an HTTP response that Client.submit and
Client.getResult inspect: the status, the body text used in error
messages, the stringified JSON used in the missing-id message, the id
field under data, and the data object itself. -/
structure RespData where
  status : ℕ
  text : String := ""
  jsonStr : String := ""
  dataId : Option String := none
  data : Option JobData := none
deriving DecidableEq, Repr

/-- Outcome of a single fetch attempt. -/
inductive HttpAttempt where
  | err (name msg : String)
  | resp (r : RespData)
deriving DecidableEq, Repr

/-- Message of the configuration error thrown by getHeaders and by upload
when no API key is set. -/
def apiKeyRequiredMsg : String :=
  "API key is required. Set WAVESPEED_API_KEY environment variable or pass apiKey to Client()."

/-- The isConnectionError test in the catch blocks of Client.submit and
Client.getResult. -/
def isConnectionError (e : JsError) : Prop :=
  e.name = "AbortError" ∨ e.name = "TypeError" ∨ strIncludes e.msg "fetch" = true

instance (e : JsError) : Decidable (isConnectionError e) := by
  unfold isConnectionError; infer_instance

/-- Message of the non-2xx error thrown inside the try block of submit. -/
def submitHttpErrMsg (status : ℕ) (text : String) : String :=
  "Failed to submit prediction: HTTP " ++ toString status ++ ": " ++ text

/-- Message of the missing-request-id error thrown by submit. -/
def submitNoIdMsg (jsonStr : String) : String :=
  "No request ID in response: " ++ jsonStr

/-- Message of the retries-exhausted error thrown by submit. -/
def submitExhaustMsg (attempts : ℕ) (lastMsg : String) : String :=
  "Failed to submit prediction after " ++ toString attempts
    ++ " attempts: " ++ lastMsg

/-- What submit produces: a job id (async mode), the inline result payload
(sync mode), or a thrown error. -/
inductive SubmitOutcome where
  | asyncId (id : String)
  | syncRes (data : Option JobData)
  | thrown (e : JsError)
deriving DecidableEq, Repr

/-- Submit result together with the number of HTTP calls issued. -/
structure SubmitRes where
  outcome : SubmitOutcome
  calls : ℕ
deriving DecidableEq, Repr

/-- The try block of one submit attempt: header construction first (fails
without a fetch when the key is empty), then the fetch, then the non-2xx
check, then the sync-mode return or the id extraction, where a missing or
empty id is falsy and raises. Returns the value or the caught error, plus
the number of fetches issued (0 or 1). -/
def submitTry (apiKey : String) (sync : Bool) (a : HttpAttempt) :
    Except JsError SubmitOutcome × ℕ :=
  if apiKey = "" then (.error ⟨"Error", apiKeyRequiredMsg⟩, 0)
  else
    match a with
    | .err name msg => (.error ⟨name, msg⟩, 1)
    | .resp r =>
      if ¬ respOk r.status then
        (.error ⟨"Error", submitHttpErrMsg r.status r.text⟩, 1)
      else if sync then
        (.ok (.syncRes r.data), 1)
      else
        match r.dataId with
        | some id =>
          if id = "" then (.error ⟨"Error", submitNoIdMsg r.jsonStr⟩, 1)
          else (.ok (.asyncId id), 1)
        | none => (.error ⟨"Error", submitNoIdMsg r.jsonStr⟩, 1)

/-- The connection-retry loop of Client.submit: a caught connection error
with budget left sleeps and retries; on the last attempt any caught error
is wrapped in the exhaustion message; any other caught error is rethrown
as-is. The last parameter carries lastError for the unreachable
fuel-exhausted rethrow after the loop. -/
def submitGo (apiKey : String) (N : ℕ) (sync : Bool) (w : ℕ → HttpAttempt) :
    ℕ → ℕ → ℕ → JsError → SubmitRes
  | 0, _k, calls, last => ⟨.thrown last, calls⟩
  | fuel + 1, k, calls, _last =>
    match submitTry apiKey sync (w k) with
    | (.ok o, c) => ⟨o, calls + c⟩
    | (.error e, c) =>
      if isConnectionError e ∧ k < N then
        submitGo apiKey N sync w fuel (k + 1) (calls + c) e
      else if N ≤ k then
        ⟨.thrown ⟨"Error", submitExhaustMsg (N + 1) e.msg⟩, calls + c⟩
      else
        ⟨.thrown e, calls + c⟩

/-- Entry point of Client.submit with maxConnectionRetries = N, hence at
most N + 1 attempts. -/
def submit (apiKey : String) (N : ℕ) (sync : Bool) (w : ℕ → HttpAttempt) :
    SubmitRes :=
  submitGo apiKey N sync w (N + 1) 0 0 ⟨"Error", ""⟩

/-- Message of the non-2xx error thrown inside the try block of
getResult. -/
def getResultHttpErrMsg (requestId : String) (status : ℕ) (text : String) :
    String :=
  "Failed to get result for task " ++ requestId ++ ": HTTP "
    ++ toString status ++ ": " ++ text

/-- Message of the retries-exhausted error thrown by getResult. -/
def getResultExhaustMsg (requestId : String) (attempts : ℕ) (lastMsg : String) :
    String :=
  "Failed to get result for task " ++ requestId ++ " after "
    ++ toString attempts ++ " attempts: " ++ lastMsg

/-- GetResult result: the parsed data of the response on success, the
thrown error otherwise, plus the number of HTTP calls issued. -/
structure GetResultRes where
  outcome : Except JsError (Option JobData)
  calls : ℕ

/-- The try block of one getResult attempt. -/
def getResultTry (apiKey requestId : String) (a : HttpAttempt) :
    Except JsError (Option JobData) × ℕ :=
  if apiKey = "" then (.error ⟨"Error", apiKeyRequiredMsg⟩, 0)
  else
    match a with
    | .err name msg => (.error ⟨name, msg⟩, 1)
    | .resp r =>
      if ¬ respOk r.status then
        (.error ⟨"Error", getResultHttpErrMsg requestId r.status r.text⟩, 1)
      else (.ok r.data, 1)

/-- The connection-retry loop of Client.getResult, same shape as the
submit loop with its own messages. -/
def getResultGo (apiKey requestId : String) (N : ℕ) (w : ℕ → HttpAttempt) :
    ℕ → ℕ → ℕ → JsError → GetResultRes
  | 0, _k, calls, last => ⟨.error last, calls⟩
  | fuel + 1, k, calls, _last =>
    match getResultTry apiKey requestId (w k) with
    | (.ok d, c) => ⟨.ok d, calls + c⟩
    | (.error e, c) =>
      if isConnectionError e ∧ k < N then
        getResultGo apiKey requestId N w fuel (k + 1) (calls + c) e
      else if N ≤ k then
        ⟨.error ⟨"Error", getResultExhaustMsg requestId (N + 1) e.msg⟩,
          calls + c⟩
      else
        ⟨.error e, calls + c⟩

/-- Entry point of Client.getResult with maxConnectionRetries = N. -/
def getResult (apiKey requestId : String) (N : ℕ) (w : ℕ → HttpAttempt) :
    GetResultRes :=
  getResultGo apiKey requestId N w (N + 1) 0 0 ⟨"Error", ""⟩

/-! ### Client.run: the task-level retry wrapper -/

/-- The task-level classification Client.isRetryableError: match the
lowercased rendering of the error against the four substrings. -/
def isRetryableError (e : JsError) : Prop :=
  strIncludes (strToLower e.toStr) "timeout" = true
  ∨ strIncludes (strToLower e.toStr) "connection" = true
  ∨ strIncludes (strToLower e.toStr) "http 5" = true
  ∨ strIncludes (strToLower e.toStr) "429" = true

instance (e : JsError) : Decidable (isRetryableError e) := by
  unfold isRetryableError; infer_instance

/-- Result of the run loop: the returned outputs or the propagated error,
the number of full attempts performed, and the backoff sleeps (in seconds)
requested between attempts. -/
structure RunRes where
  out : Except JsError (List String)
  attempts : ℕ
  sleeps : List ℚ
deriving Repr

/-- The retry loop of Client.run over the outcomes of its wrapped body
(the whole submit-and-wait sequence of attempt k is abstracted as oc k):
a failure is rethrown when not retryable or when the budget m is spent,
and otherwise the loop sleeps interval * (attempt + 1) seconds and runs
the next full attempt. -/
def runGo (m : ℕ) (interval : ℚ) (oc : ℕ → Except JsError (List String)) :
    ℕ → ℕ → List ℚ → RunRes
  | 0, k, sl =>
    ⟨.error ⟨"Error", "All " ++ toString (m + 1) ++ " attempts failed"⟩, k, sl⟩
  | fuel + 1, k, sl =>
    match oc k with
    | .ok v => ⟨.ok v, k + 1, sl⟩
    | .error e =>
      if ¬ isRetryableError e ∨ m ≤ k then ⟨.error e, k + 1, sl⟩
      else runGo m interval oc fuel (k + 1) (sl ++ [interval * ((k : ℚ) + 1)])

/-- Entry point of the run retry loop with maxRetries = m. -/
def runLoop (m : ℕ) (interval : ℚ)
    (oc : ℕ → Except JsError (List String)) : RunRes :=
  runGo m interval oc (m + 1) 0 []

/-! ### The composed Client.run -/

/-- Composed run result: outcome, total HTTP calls, task-level sleeps. -/
structure ClientRunRes where
  out : Except JsError (List String)
  calls : ℕ
  sleeps : List ℚ

/-- One full attempt of the wrapped body of Client.run: submit, then in
sync mode the inline-result branch, otherwise the poll loop on the job id.
Each successful poll fetch is counted as one HTTP call; the connection
retries inside getResult are modelled by getResultGo separately. -/
def runAttemptBody (apiKey : String) (N : ℕ) (sync : Bool)
    (timeout : Option ℚ) (pollFuel : ℕ) (sw : ℕ → HttpAttempt)
    (fw : ℕ → JobData) (tw : ℕ → ℚ) : Except JsError (List String) × ℕ :=
  let s := submit apiKey N sync sw
  match s.outcome with
  | .thrown e => (.error e, s.calls)
  | .syncRes data =>
    let d := data.getD {}
    if d.status = some "completed" then (.ok (d.outputs.getD []), s.calls)
    else
      (.error ⟨"Error", waitFailMsg (jsOrStr d.id "unknown")
        (jsOrStr d.error "Unknown error")⟩, s.calls)
  | .asyncId id =>
    match waitGo id timeout fw tw pollFuel 0 with
    | .completed outs c => (.ok outs, s.calls + c)
    | .failed msg c => (.error ⟨"Error", msg⟩, s.calls + c)
    | .timedOut msg c => (.error ⟨"Error", msg⟩, s.calls + c)
    | .fuelOut c => (.error ⟨"Error", "poll fuel exhausted"⟩, s.calls + c)

/-- The task-level retry loop of Client.run over per-attempt worlds:
sw k, fw k and tw k drive the submit attempts, poll fetches and clock of
full attempt k. -/
def runComposedGo (apiKey : String) (m : ℕ) (interval : ℚ) (sync : Bool)
    (N : ℕ) (timeout : Option ℚ) (pollFuel : ℕ) (sw : ℕ → ℕ → HttpAttempt)
    (fw : ℕ → ℕ → JobData) (tw : ℕ → ℕ → ℚ) :
    ℕ → ℕ → ℕ → List ℚ → ClientRunRes
  | 0, _k, calls, sl =>
    ⟨.error ⟨"Error", "All " ++ toString (m + 1) ++ " attempts failed"⟩,
      calls, sl⟩
  | fuel + 1, k, calls, sl =>
    match runAttemptBody apiKey N sync timeout pollFuel (sw k) (fw k) (tw k) with
    | (.ok v, c) => ⟨.ok v, calls + c, sl⟩
    | (.error e, c) =>
      if ¬ isRetryableError e ∨ m ≤ k then ⟨.error e, calls + c, sl⟩
      else
        runComposedGo apiKey m interval sync N timeout pollFuel sw fw tw
          fuel (k + 1) (calls + c) (sl ++ [interval * ((k : ℚ) + 1)])

/-- The composed Client.run with maxRetries = m and
maxConnectionRetries = N. -/
def run (apiKey : String) (m : ℕ) (interval : ℚ) (sync : Bool) (N : ℕ)
    (timeout : Option ℚ) (pollFuel : ℕ) (sw : ℕ → ℕ → HttpAttempt)
    (fw : ℕ → ℕ → JobData) (tw : ℕ → ℕ → ℚ) : ClientRunRes :=
  runComposedGo apiKey m interval sync N timeout pollFuel sw fw tw (m + 1) 0 0 []

/-! ### Client.upload -/

/-- Parsed pieces of the upload response: HTTP status, body text, and the
code, message and download_url fields of the JSON body. -/
structure UploadResp where
  status : ℕ
  text : String := ""
  code : ℕ := 200
  message : String := ""
  downloadUrl : Option String := none
deriving DecidableEq, Repr

/-- Outcome of the single upload fetch. -/
inductive UploadAttempt where
  | err (name msg : String)
  | resp (r : UploadResp)
deriving DecidableEq, Repr

/-- Client.upload: API-key check first, then the file-existence check,
then one fetch; a non-2xx status, a non-200 body code and a falsy
download_url each raise their own error. Returns the result and the
number of HTTP calls issued. -/
def upload (apiKey file : String) (fileExists : Bool) (a : UploadAttempt) :
    Except JsError String × ℕ :=
  if apiKey = "" then (.error ⟨"Error", apiKeyRequiredMsg⟩, 0)
  else if fileExists = false then
    (.error ⟨"Error", "File not found: " ++ file⟩, 0)
  else
    match a with
    | .err name msg => (.error ⟨name, msg⟩, 1)
    | .resp r =>
      if ¬ respOk r.status then
        (.error ⟨"Error", "Failed to upload file: HTTP " ++ toString r.status
          ++ ": " ++ r.text⟩, 1)
      else if r.code ≠ 200 then
        (.error ⟨"Error", "Upload failed: "
          ++ jsOrStr (some r.message) "Unknown error"⟩, 1)
      else
        match r.downloadUrl with
        | some u =>
          if u = "" then
            (.error ⟨"Error", "Upload failed: no download_url in response"⟩, 1)
          else (.ok u, 1)
        | none =>
          (.error ⟨"Error", "Upload failed: no download_url in response"⟩, 1)

end Client

/-! ## A reference-based object store for the body-construction frame
property of Client.submit

JS objects are mutable references into a heap; the store models just
enough of this to state that building the request body does not touch the
object the caller passed in. -/

/-- Field values: the marker is a boolean, other inputs are opaque. -/
inductive JsVal where
  | bool (b : Bool)
  | str (s : String)
  | num (q : ℚ)
deriving DecidableEq, Repr

/-- A JS object as an ordered field list; keys are unique by construction
of objSet. -/
abbrev JsObj := List (String × JsVal)

/-- Property read o.key. -/
def objGet : JsObj → String → Option JsVal
  | [], _ => none
  | (k, v) :: rest, key => if k = key then some v else objGet rest key

/-- Property write o.key = v: overwrite in place when present, append
otherwise, as JS assignment does. -/
def objSet : JsObj → String → JsVal → JsObj
  | [], key, v => [(key, v)]
  | (k, w) :: rest, key, v =>
    if k = key then (key, v) :: rest else (k, w) :: objSet rest key v

/-- A heap of JS objects addressed by allocation index. -/
structure Store where
  objs : List JsObj
deriving DecidableEq, Repr

/-- Dereference a. -/
def Store.get (s : Store) (r : ℕ) : JsObj := s.objs.getD r []

/-- Allocate a fresh object, returning the new store and its address. -/
def Store.alloc (s : Store) (o : JsObj) : Store × ℕ :=
  (⟨s.objs ++ [o]⟩, s.objs.length)

/-- Overwrite the object at an address. -/
def Store.set (s : Store) (r : ℕ) (o : JsObj) : Store :=
  ⟨s.objs.set r o⟩

/-- The body construction at the top of Client.submit: allocate a shallow
copy of the input object (or a fresh empty object when input is absent),
then set the enable_sync_mode field on the copy alone when sync mode is
on. Returns the new store and the address of the body. -/
def submitBuildBody (st : Store) (input : Option ℕ) (sync : Bool) :
    Store × ℕ :=
  let body : JsObj := match input with | some r => st.get r | none => []
  let p := st.alloc body
  if sync then
    (p.1.set p.2 (objSet (p.1.get p.2) "enable_sync_mode" (.bool true)), p.2)
  else p

/-- Example attempt outcomes for the run-retry witness: a retryable HTTP
5xx failure, then a non-retryable failure. -/
def exRunOutcomes : ℕ → Except JsError (List String) := fun k =>
  if k = 0 then .error ⟨"Error", "HTTP 500: boom"⟩
  else .error ⟨"Error", "Invalid input"⟩

/-- Example submit world for the sync-mode witness: the single POST
resolves with an inline failed payload. -/
def exSyncSw : ℕ → ℕ → Client.HttpAttempt := fun _ _ =>
  .resp ⟨200, "", "", none,
    some ⟨some "task-9", some "failed", none, some "NSFW content detected"⟩⟩

/-! ## Theorems -/

theorem charsStartWith_append (p y : List Char) :
    charsStartWith (p ++ y) p = true := by
  induction p with
  | nil => cases y <;> rfl
  | cons c cs ih => simp [charsStartWith, ih]

theorem charsIncludes_nil_pat (l : List Char) : charsIncludes [] l = true := by
  cases l with
  | nil => rfl
  | cons c rest => simp [charsIncludes, charsStartWith]

theorem charsIncludes_append (pat x y : List Char) :
    charsIncludes pat (x ++ pat ++ y) = true := by
  induction x with
  | nil =>
    cases pat with
    | nil => simpa using charsIncludes_nil_pat y
    | cons p ps =>
      show charsIncludes (p :: ps) (p :: (ps ++ y)) = true
      simp only [charsIncludes, Bool.or_eq_true]
      exact Or.inl (charsStartWith_append (p :: ps) y)
  | cons c cs ih =>
    show charsIncludes pat (c :: (cs ++ pat ++ y)) = true
    simp only [charsIncludes, Bool.or_eq_true]
    exact Or.inr ih

theorem strData_append (a b : String) : (a ++ b).data = a.data ++ b.data := rfl

theorem strAppend_assoc (a b c : String) : a ++ b ++ c = a ++ (b ++ c) :=
  congrArg String.mk (List.append_assoc a.data b.data c.data)

theorem strAppend_nil (s : String) : s ++ "" = s :=
  congrArg String.mk (List.append_nil s.data)

/-- A string built as prelude ++ pat ++ tail passes the includes test. -/
theorem strIncludes_of_append (a pat b : String) :
    strIncludes (a ++ pat ++ b) pat = true := by
  show charsIncludes pat.data ((a ++ pat ++ b).data) = true
  rw [strData_append, strData_append]
  exact charsIncludes_append pat.data a.data b.data

theorem Client.waitGo_advance (requestId : String) (timeout : Option ℚ)
    (fetches : ℕ → JobData) (times : ℕ → ℚ) (r : ℕ) :
    ∀ k fuel, (∀ j, j < r → Client.waitDeadlineHit timeout (times (k + j)) = none ∧
      Client.nonterminal (fetches (k + j))) →
    Client.waitGo requestId timeout fetches times (fuel + r) k
      = Client.waitGo requestId timeout fetches times fuel (k + r) := by
  induction r with
  | zero => intro k fuel _; rfl
  | succ r ih =>
    intro k fuel h
    have h0 := h 0 (Nat.succ_pos r)
    rw [Nat.add_zero] at h0
    have step : Client.waitGo requestId timeout fetches times (fuel + r + 1) k
        = Client.waitGo requestId timeout fetches times (fuel + r) (k + 1) := by
      rw [Client.waitGo, h0.1]
      simp only []
      rw [if_neg h0.2.1, if_neg h0.2.2]
    rw [show fuel + (r + 1) = fuel + r + 1 from rfl, step,
      ih (k + 1) fuel (fun j hj => by
        have := h (j + 1) (Nat.succ_lt_succ hj)
        rwa [show k + (j + 1) = k + 1 + j by omega] at this)]
    congr 1
    omega

/-- Claim C3: when the n-th fetch is the first terminal one and reports
completed, the poll loop of Client.wait does exactly n fetches and returns
the outputs of that fetch, with an absent outputs field becoming the empty
list via Option.getD. -/
theorem wait_first_completed (requestId : String) (fetches : ℕ → JobData)
    (times : ℕ → ℚ) (n fuel : ℕ)
    (hn : 1 ≤ n) (hfuel : n ≤ fuel)
    (hpre : ∀ j, j + 1 < n → Client.nonterminal (fetches j))
    (hcomp : (fetches (n - 1)).status = some "completed") :
    Client.wait requestId none fetches times fuel
      = .completed ((fetches (n - 1)).outputs.getD []) n := by
  unfold Client.wait
  have hsplit : fuel = (fuel - (n - 1) - 1) + 1 + (n - 1) := by omega
  rw [hsplit, Client.waitGo_advance requestId none fetches times (n - 1) 0
    (fuel - (n - 1) - 1 + 1) (fun j hj =>
      ⟨rfl, by rw [Nat.zero_add]; exact hpre j (by omega)⟩)]
  rw [Client.waitGo]
  show (if (fetches (0 + (n - 1))).status = some "completed" then _ else _) = _
  rw [Nat.zero_add, if_pos hcomp]
  congr 1
  omega

/-- Witness for wait_first_completed: processing, processing, completed
with outputs, three fetches total. -/
theorem wait_first_completed_witness :
    Client.wait "job-1" none exFetchesCompleted (fun _ => 0) 3
      = .completed ["https://out/u.png"] 3 := by
  have h := wait_first_completed "job-1" exFetchesCompleted (fun _ => 0) 3 3
    (by decide) (by decide)
    (fun j hj => by
      constructor <;> simp [exFetchesCompleted, if_pos (show j < 2 by omega)])
    (by simp [exFetchesCompleted])
  simpa [exFetchesCompleted] using h

/-- Claim C2: when the n-th fetch is the first terminal one and reports
failed, Client.wait stops after exactly n fetches with the failure message
built from the job id and the remote error text, Unknown error standing in
when that text is absent or empty; the message textually includes the job
id and the used error text. -/
theorem wait_failed_terminal (requestId : String) (fetches : ℕ → JobData)
    (times : ℕ → ℚ) (n fuel : ℕ)
    (hn : 1 ≤ n) (hfuel : n ≤ fuel)
    (hpre : ∀ j, j + 1 < n → Client.nonterminal (fetches j))
    (hfail : (fetches (n - 1)).status = some "failed") :
    Client.wait requestId none fetches times fuel
      = .failed (Client.waitFailMsg requestId
          (jsOrStr (fetches (n - 1)).error "Unknown error")) n
    ∧ strIncludes (Client.waitFailMsg requestId
        (jsOrStr (fetches (n - 1)).error "Unknown error")) requestId = true
    ∧ strIncludes (Client.waitFailMsg requestId
        (jsOrStr (fetches (n - 1)).error "Unknown error"))
        (jsOrStr (fetches (n - 1)).error "Unknown error") = true
    ∧ ((fetches (n - 1)).error = none →
        jsOrStr (fetches (n - 1)).error "Unknown error" = "Unknown error") := by
  refine ⟨?_, ?_, ?_, fun h => by rw [h]; rfl⟩
  · unfold Client.wait
    have hsplit : fuel = (fuel - (n - 1) - 1) + 1 + (n - 1) := by omega
    rw [hsplit, Client.waitGo_advance requestId none fetches times (n - 1) 0
      (fuel - (n - 1) - 1 + 1) (fun j hj =>
      ⟨rfl, by rw [Nat.zero_add]; exact hpre j (by omega)⟩)]
    rw [Client.waitGo]
    show (if (fetches (0 + (n - 1))).status = some "completed" then _ else _) = _
    rw [Nat.zero_add, if_neg (by rw [hfail]; decide), if_pos hfail]
    congr 1
    omega
  · rw [Client.waitFailMsg, strAppend_assoc]
    exact strIncludes_of_append _ _ _
  · rw [Client.waitFailMsg]
    have h := strIncludes_of_append
      ("Prediction failed (task_id: " ++ requestId ++ "): ")
      (jsOrStr (fetches (n - 1)).error "Unknown error") ""
    rwa [strAppend_nil] at h

/-- Witness for wait_failed_terminal: failure on the third fetch with no
error text, so the Unknown error default is used. -/
theorem wait_failed_terminal_witness :
    Client.wait "job-2" none exFetchesFailed (fun _ => 0) 5
      = .failed "Prediction failed (task_id: job-2): Unknown error" 3 := by
  have h := wait_failed_terminal "job-2" exFetchesFailed (fun _ => 0) 3 5
    (by decide) (by decide)
    (fun j hj => by
      constructor <;> simp [exFetchesFailed, if_pos (show j < 2 by omega)])
    (by simp [exFetchesFailed])
  have h1 := h.1
  simpa [exFetchesFailed, jsOrStr, Client.waitFailMsg] using h1

/-- Claim C4: on every tick the deadline test runs before the fetch; as
soon as the elapsed clock reaches the configured timeout the loop stops
with the timed-out message naming the timeout, without fetching on that
tick. With timeout zero no fetch at all is issued. -/
theorem wait_deadline_preempts (requestId : String) (fetches : ℕ → JobData)
    (times : ℕ → ℚ) (T : ℚ) (k fuel : ℕ)
    (hfuel : k < fuel)
    (hpre : ∀ j, j < k → times j < T ∧ Client.nonterminal (fetches j))
    (hhit : T ≤ times k) :
    Client.wait requestId (some T) fetches times fuel
      = .timedOut (Client.waitTimeoutMsg T requestId) k := by
  unfold Client.wait
  have hsplit : fuel = (fuel - k - 1) + 1 + k := by omega
  rw [hsplit, Client.waitGo_advance requestId (some T) fetches times k 0
    (fuel - k - 1 + 1) (fun j hj => by
      rw [Nat.zero_add]
      refine ⟨?_, (hpre j hj).2⟩
      rw [Client.waitDeadlineHit, if_neg (not_le.mpr (hpre j hj).1)])]
  rw [Client.waitGo]
  show (match Client.waitDeadlineHit (some T) (times (0 + k)) with
    | some t => Client.WaitRes.timedOut (Client.waitTimeoutMsg t requestId) (0 + k)
    | none => _) = _
  rw [Nat.zero_add, Client.waitDeadlineHit, if_pos hhit]

/-- Witness for wait_deadline_preempts: a zero overall timeout makes the
loop stop before the first fetch, with zero fetches issued. -/
theorem wait_deadline_preempts_witness :
    Client.wait "job-3" (some 0) exFetchesCompleted (fun _ => 0) 7
      = .timedOut (Client.waitTimeoutMsg 0 "job-3") 0 :=
  wait_deadline_preempts "job-3" exFetchesCompleted (fun _ => 0) 0 0 7
    (by decide) (fun j hj => absurd hj (Nat.not_lt_zero j)) le_rfl


theorem WaveSpeed.fetchGo_attempts_le (method : String) (maxR : ℕ)
    (w : ℕ → WaveSpeed.TransportOutcome) :
    ∀ fuel k, k ≤ (WaveSpeed.fetchGo method maxR w fuel k).attempts := by
  intro fuel
  induction fuel with
  | zero => intro k; exact le_refl k
  | succ fuel ih =>
    intro k
    rw [WaveSpeed.fetchGo]
    cases hw : w k with
    | resp s =>
      simp only []
      by_cases h : respOk s ∨ ¬ WaveSpeed.shouldRetry method s ∨ maxR ≤ k
      · rw [if_pos h]; exact Nat.le_succ k
      · rw [if_neg h]; exact le_trans (Nat.le_succ k) (ih (k + 1))
    | err name =>
      simp only []
      by_cases h : WaveSpeed.retryableErrName name ∧ k < maxR ∧ method = "GET"
      · rw [if_pos h]; exact le_trans (Nat.le_succ k) (ih (k + 1))
      · rw [if_neg h]; exact Nat.le_succ k

theorem WaveSpeed.fetchGo_attempts_ge (method : String) (maxR : ℕ)
    (w : ℕ → WaveSpeed.TransportOutcome) (fuel k : ℕ) (hfuel : 1 ≤ fuel) :
    k + 1 ≤ (WaveSpeed.fetchGo method maxR w fuel k).attempts := by
  obtain ⟨f, rfl⟩ : ∃ f, fuel = f + 1 := ⟨fuel - 1, by omega⟩
  rw [WaveSpeed.fetchGo]
  cases hw : w k with
  | resp s =>
    simp only []
    by_cases h : respOk s ∨ ¬ WaveSpeed.shouldRetry method s ∨ maxR ≤ k
    · rw [if_pos h]; exact le_refl _
    · rw [if_neg h]; exact WaveSpeed.fetchGo_attempts_le method maxR w f (k + 1)
  | err name =>
    simp only []
    by_cases h : WaveSpeed.retryableErrName name ∧ k < maxR ∧ method = "GET"
    · rw [if_pos h]; exact WaveSpeed.fetchGo_attempts_le method maxR w f (k + 1)
    · rw [if_neg h]; exact le_refl _

/-- Claim C1, counterexample: a POST call whose transport attempt fails
with the deadline abort (a timeout error) is thrown to the caller after
exactly one attempt, even though maxRetriesVal = 3 attempts of budget
remain, contradicting the claim that the wrapper retries every
connection- or timeout-class transport failure. -/
theorem fetch_post_transport_error_not_retried :
    WaveSpeed.fetchWithTimeout "POST" 3
      (fun _ => WaveSpeed.TransportOutcome.err "AbortError")
      = .thrown "AbortError" 1 := by decide

/-- Claim C1 (amended): the fetchWithTimeout wrapper retries exactly when
the response status is 429 or the status is at least 500 on a GET, or the
transport fails with a connection or timeout error AND the method is GET;
in particular every POST call sees a 5xx response returned unchanged on
the first attempt, with no retry at this layer. -/
theorem fetch_retry_predicate (method : String) (maxR : ℕ)
    (w : ℕ → WaveSpeed.TransportOutcome) (hmax : 1 ≤ maxR) :
    (∀ name, w 0 = .err name →
      (2 ≤ (WaveSpeed.fetchWithTimeout method maxR w).attempts ↔
        WaveSpeed.retryableErrName name ∧ method = "GET"))
    ∧ (∀ s, w 0 = .resp s →
      (2 ≤ (WaveSpeed.fetchWithTimeout method maxR w).attempts ↔
        WaveSpeed.shouldRetry method s))
    ∧ (∀ s, w 0 = .resp s → 500 ≤ s → method = "POST" →
      WaveSpeed.fetchWithTimeout method maxR w = .response s 1) := by
  obtain ⟨f, hf⟩ : ∃ f, maxR + 1 = f + 1 := ⟨maxR, rfl⟩
  refine ⟨?_, ?_, ?_⟩
  · intro name h0
    unfold WaveSpeed.fetchWithTimeout
    rw [hf, WaveSpeed.fetchGo, h0]
    simp only []
    by_cases h : WaveSpeed.retryableErrName name ∧ 0 < maxR ∧ method = "GET"
    · rw [if_pos h]
      constructor
      · intro _; exact ⟨h.1, h.2.2⟩
      · intro _; exact WaveSpeed.fetchGo_attempts_ge method maxR w f 1 (by omega)
    · rw [if_neg h]
      constructor
      · intro hA; exact absurd hA (by simp [WaveSpeed.FetchResult.attempts])
      · intro hr; exact absurd ⟨hr.1, by omega, hr.2⟩ h
  · intro s h0
    unfold WaveSpeed.fetchWithTimeout
    rw [hf, WaveSpeed.fetchGo, h0]
    simp only []
    by_cases h : respOk s ∨ ¬ WaveSpeed.shouldRetry method s ∨ maxR ≤ 0
    · rw [if_pos h]
      constructor
      · intro hA; exact absurd hA (by simp [WaveSpeed.FetchResult.attempts])
      · intro hr
        rcases h with hok | hns | hm0
        · exfalso
          rcases hr with h429 | ⟨_, h5⟩
          · rw [h429] at hok; exact absurd hok.2 (by norm_num)
          · exact absurd hok.2 (by omega)
        · exact absurd hr hns
        · omega
    · rw [if_neg h]
      constructor
      · intro _
        by_contra hns
        exact h (Or.inr (Or.inl hns))
      · intro _; exact WaveSpeed.fetchGo_attempts_ge method maxR w f 1 (by omega)
  · intro s h0 h5 hm
    unfold WaveSpeed.fetchWithTimeout
    rw [hf, WaveSpeed.fetchGo, h0]
    simp only []
    rw [if_pos (Or.inr (Or.inl (by
      rw [hm]
      rintro (h429 | ⟨hget, _⟩)
      · omega
      · exact absurd hget (by decide))))]

/-- Witness for fetch_retry_predicate: a GET with a 503 response is
retried (at least two attempts), and a POST with a 503 response is
returned unchanged after one attempt. -/
theorem fetch_retry_predicate_witness :
    2 ≤ (WaveSpeed.fetchWithTimeout "GET" 3
      (fun _ => WaveSpeed.TransportOutcome.resp 503)).attempts
    ∧ WaveSpeed.fetchWithTimeout "POST" 3
      (fun _ => WaveSpeed.TransportOutcome.resp 503) = .response 503 1 := by
  constructor
  · exact ((fetch_retry_predicate "GET" 3 _ (by decide)).2.1 503 rfl).mpr
      (Or.inr ⟨rfl, by norm_num⟩)
  · exact (fetch_retry_predicate "POST" 3 _ (by decide)).2.2 503 rfl
      (by norm_num) rfl

theorem Client.runGo_attempts_le (m : ℕ) (interval : ℚ)
    (oc : ℕ → Except JsError (List String)) :
    ∀ fuel k sl, k ≤ (Client.runGo m interval oc fuel k sl).attempts := by
  intro fuel
  induction fuel with
  | zero => intro k sl; exact le_refl k
  | succ fuel ih =>
    intro k sl
    rw [Client.runGo]
    cases hoc : oc k with
    | ok v => exact Nat.le_succ k
    | error e =>
      simp only []
      by_cases h : ¬ Client.isRetryableError e ∨ m ≤ k
      · rw [if_pos h]; exact Nat.le_succ k
      · rw [if_neg h]; exact le_trans (Nat.le_succ k) (ih (k + 1) _)

theorem Client.runGo_attempts_ge (m : ℕ) (interval : ℚ)
    (oc : ℕ → Except JsError (List String)) (fuel k : ℕ) (sl : List ℚ)
    (hfuel : 1 ≤ fuel) :
    k + 1 ≤ (Client.runGo m interval oc fuel k sl).attempts := by
  obtain ⟨f, rfl⟩ : ∃ f, fuel = f + 1 := ⟨fuel - 1, by omega⟩
  rw [Client.runGo]
  cases hoc : oc k with
  | ok v => exact le_refl _
  | error e =>
    simp only []
    by_cases h : ¬ Client.isRetryableError e ∨ m ≤ k
    · rw [if_pos h]
    · rw [if_neg h]; exact Client.runGo_attempts_le m interval oc f (k + 1) _

theorem Client.runGo_advance (m : ℕ) (interval : ℚ)
    (oc : ℕ → Except JsError (List String)) (r : ℕ) :
    ∀ k fuel sl,
    (∀ j, j < r → ∃ e, oc (k + j) = .error e ∧ Client.isRetryableError e) →
    k + r ≤ m →
    Client.runGo m interval oc (fuel + r) k sl
      = Client.runGo m interval oc fuel (k + r)
          (sl ++ (List.range' (k + 1) r).map (fun (i : ℕ) => interval * (i : ℚ))) := by
  induction r with
  | zero =>
    intro k fuel sl _ _
    simp [List.range']
  | succ r ih =>
    intro k fuel sl hfail hkm
    obtain ⟨e, he, hre⟩ := hfail 0 (Nat.succ_pos r)
    rw [Nat.add_zero] at he
    have step : Client.runGo m interval oc (fuel + r + 1) k sl
        = Client.runGo m interval oc (fuel + r) (k + 1)
            (sl ++ [interval * ((k : ℚ) + 1)]) := by
      rw [Client.runGo, he]
      simp only []
      rw [if_neg ((not_or).mpr ⟨not_not_intro hre, not_le.mpr (by omega)⟩)]
    rw [show fuel + (r + 1) = fuel + r + 1 from rfl, step,
      ih (k + 1) fuel _ (fun j hj => by
        obtain ⟨e2, he2, hre2⟩ := hfail (j + 1) (Nat.succ_lt_succ hj)
        rw [show k + (j + 1) = k + 1 + j by omega] at he2
        exact ⟨e2, he2, hre2⟩) (by omega)]
    have harg : k + 1 + r = k + (r + 1) := by omega
    have hlist : (sl ++ [interval * ((k : ℚ) + 1)])
        ++ (List.range' (k + 1 + 1) r).map (fun (i : ℕ) => interval * (i : ℚ))
        = sl ++ (List.range' (k + 1) (r + 1)).map (fun (i : ℕ) => interval * (i : ℚ)) := by
      rw [List.append_assoc]
      congr 1
      rw [List.range'_succ, List.map_cons, List.singleton_append]
      congr 2
      push_cast
      ring
    rw [harg, hlist]

/-- Claim C5: in the task-retry loop of Client.run with budget maxRetries
= m, a failed full attempt r is followed by a further full attempt exactly
when r < m and the failure is classified retryable; a failure that is not
retryable, or arrives with the budget spent, propagates unchanged after
exactly r + 1 attempts with the backoff sleeps interval * 1, ...,
interval * r in order; and retryability means the lowercased rendering of
the error contains timeout, connection, http 5 or 429. -/
theorem run_task_retry_policy (m : ℕ) (interval : ℚ)
    (oc : ℕ → Except JsError (List String)) (r : ℕ) (e : JsError)
    (hr : r ≤ m)
    (hfail : ∀ j, j < r → ∃ e2, oc j = .error e2 ∧ Client.isRetryableError e2)
    (he : oc r = .error e) :
    ((¬ Client.isRetryableError e ∨ r = m) →
      Client.runLoop m interval oc = ⟨.error e, r + 1,
        (List.range' 1 r).map (fun (i : ℕ) => interval * (i : ℚ))⟩)
    ∧ (Client.isRetryableError e → r < m →
      r + 2 ≤ (Client.runLoop m interval oc).attempts)
    ∧ (Client.isRetryableError e ↔
      (strIncludes (strToLower e.toStr) "timeout" = true
      ∨ strIncludes (strToLower e.toStr) "connection" = true
      ∨ strIncludes (strToLower e.toStr) "http 5" = true
      ∨ strIncludes (strToLower e.toStr) "429" = true)) := by
  have hadv : Client.runLoop m interval oc
      = Client.runGo m interval oc (m + 1 - r) r
          ((List.range' 1 r).map (fun (i : ℕ) => interval * (i : ℚ))) := by
    have h := Client.runGo_advance m interval oc r 0 (m + 1 - r) []
      (fun j hj => by rw [Nat.zero_add]; exact hfail j hj) (by omega)
    simp only [Nat.zero_add, List.nil_append] at h
    unfold Client.runLoop
    conv_lhs => rw [show m + 1 = m + 1 - r + r by omega]
    exact h
  refine ⟨?_, ?_, Iff.rfl⟩
  · intro hstop
    rw [hadv]
    obtain ⟨f, hf⟩ : ∃ f, m + 1 - r = f + 1 := ⟨m - r, by omega⟩
    rw [hf, Client.runGo, he]
    simp only []
    rw [if_pos (by
      rcases hstop with h | h
      · exact Or.inl h
      · exact Or.inr (by omega))]
  · intro hre hrm
    rw [hadv]
    obtain ⟨f, hf⟩ : ∃ f, m + 1 - r = f + 1 := ⟨m - r, by omega⟩
    rw [hf, Client.runGo, he]
    simp only []
    rw [if_neg ((not_or).mpr ⟨not_not_intro hre, not_le.mpr (by omega)⟩)]
    exact Client.runGo_attempts_ge m interval oc f (r + 1) _ (by omega)

/-- Witness for run_task_retry_policy: with maxRetries = 1, the retryable
first failure triggers one retry after a sleep of 1 second, and the
non-retryable second failure propagates unchanged after 2 attempts. -/
theorem run_task_retry_policy_witness :
    Client.runLoop 1 1 exRunOutcomes
      = ⟨.error ⟨"Error", "Invalid input"⟩, 2,
          (List.range' 1 1).map (fun (i : ℕ) => (1 : ℚ) * (i : ℚ))⟩ := by
  have h := (run_task_retry_policy 1 1 exRunOutcomes 1
    ⟨"Error", "Invalid input"⟩ (by decide)
    (fun j hj => ⟨⟨"Error", "HTTP 500: boom"⟩, by
      rw [show j = 0 by omega]; exact ⟨rfl, by decide⟩⟩)
    rfl).1 (Or.inr rfl)
  exact h

theorem Client.submitGo_conn_exhaust (apiKey : String) (N : ℕ) (sync : Bool)
    (w : ℕ → Client.HttpAttempt) (nm ms : ℕ → String)
    (hkey : apiKey ≠ "")
    (hw : ∀ j, w j = .err (nm j) (ms j))
    (hnm : ∀ j, nm j = "AbortError" ∨ nm j = "TypeError") :
    ∀ fuel k calls last, k + fuel = N + 1 → 1 ≤ fuel →
    Client.submitGo apiKey N sync w fuel k calls last
      = ⟨.thrown ⟨"Error", Client.submitExhaustMsg (N + 1) (ms N)⟩,
          calls + fuel⟩ := by
  intro fuel
  induction fuel with
  | zero => intro k calls last _ h2; omega
  | succ fuel ih =>
    intro k calls last hkN _
    rw [Client.submitGo]
    have htry : Client.submitTry apiKey sync (w k)
        = (.error ⟨nm k, ms k⟩, 1) := by
      rw [Client.submitTry.eq_def, if_neg hkey, hw k]
    rw [htry]
    simp only []
    have hconn : Client.isConnectionError ⟨nm k, ms k⟩ := by
      rcases hnm k with h | h
      · exact Or.inl h
      · exact Or.inr (Or.inl h)
    by_cases hk : k < N
    · rw [if_pos ⟨hconn, hk⟩, ih (k + 1) (calls + 1) ⟨nm k, ms k⟩
        (by omega) (by omega)]
      congr 1
      omega
    · have hk0 : fuel = 0 := by omega
      have hkN' : k = N := by omega
      rw [if_neg (fun hc => hk hc.2), if_pos (by omega)]
      subst hkN'
      congr 1
      omega

theorem Client.getResultGo_conn_exhaust (apiKey requestId : String) (N : ℕ)
    (w : ℕ → Client.HttpAttempt) (nm ms : ℕ → String)
    (hkey : apiKey ≠ "")
    (hw : ∀ j, w j = .err (nm j) (ms j))
    (hnm : ∀ j, nm j = "AbortError" ∨ nm j = "TypeError") :
    ∀ fuel k calls last, k + fuel = N + 1 → 1 ≤ fuel →
    Client.getResultGo apiKey requestId N w fuel k calls last
      = ⟨.error ⟨"Error", Client.getResultExhaustMsg requestId (N + 1) (ms N)⟩,
          calls + fuel⟩ := by
  intro fuel
  induction fuel with
  | zero => intro k calls last _ h2; omega
  | succ fuel ih =>
    intro k calls last hkN _
    rw [Client.getResultGo]
    have htry : Client.getResultTry apiKey requestId (w k)
        = (.error ⟨nm k, ms k⟩, 1) := by
      rw [Client.getResultTry.eq_def, if_neg hkey, hw k]
    rw [htry]
    simp only []
    have hconn : Client.isConnectionError ⟨nm k, ms k⟩ := by
      rcases hnm k with h | h
      · exact Or.inl h
      · exact Or.inr (Or.inl h)
    by_cases hk : k < N
    · rw [if_pos ⟨hconn, hk⟩, ih (k + 1) (calls + 1) ⟨nm k, ms k⟩
        (by omega) (by omega)]
      congr 1
      omega
    · have hkN' : k = N := by omega
      rw [if_neg (fun hc => hk hc.2), if_pos (by omega)]
      subst hkN'
      congr 1
      omega

/-- Claim C7: when every one of the maxConnectionRetries + 1 attempts of
Client.submit, and likewise of Client.getResult, fails with a
retry-eligible transport failure, the wrapper issues exactly N + 1 calls
and throws the exhaustion error whose message names the total attempt
count N + 1 and embeds the message of the last underlying error. -/
theorem conn_retries_exhausted (apiKey requestId : String) (N : ℕ)
    (sync : Bool) (w w2 : ℕ → Client.HttpAttempt) (nm ms nm2 ms2 : ℕ → String)
    (hkey : apiKey ≠ "")
    (hw : ∀ j, w j = .err (nm j) (ms j))
    (hnm : ∀ j, nm j = "AbortError" ∨ nm j = "TypeError")
    (hw2 : ∀ j, w2 j = .err (nm2 j) (ms2 j))
    (hnm2 : ∀ j, nm2 j = "AbortError" ∨ nm2 j = "TypeError") :
    (Client.submit apiKey N sync w
      = ⟨.thrown ⟨"Error", Client.submitExhaustMsg (N + 1) (ms N)⟩, N + 1⟩
    ∧ strIncludes (Client.submitExhaustMsg (N + 1) (ms N))
        (toString (N + 1)) = true
    ∧ strIncludes (Client.submitExhaustMsg (N + 1) (ms N)) (ms N) = true)
    ∧ (Client.getResult apiKey requestId N w2
      = ⟨.error ⟨"Error",
          Client.getResultExhaustMsg requestId (N + 1) (ms2 N)⟩, N + 1⟩
    ∧ strIncludes (Client.getResultExhaustMsg requestId (N + 1) (ms2 N))
        (toString (N + 1)) = true
    ∧ strIncludes (Client.getResultExhaustMsg requestId (N + 1) (ms2 N))
        (ms2 N) = true) := by
  refine ⟨⟨?_, ?_, ?_⟩, ⟨?_, ?_, ?_⟩⟩
  · unfold Client.submit
    rw [Client.submitGo_conn_exhaust apiKey N sync w nm ms hkey hw hnm
      (N + 1) 0 0 ⟨"Error", ""⟩ (by omega) (by omega)]
    rw [Nat.zero_add]
  · rw [Client.submitExhaustMsg, strAppend_assoc]
    exact strIncludes_of_append _ _ _
  · rw [Client.submitExhaustMsg]
    have h := strIncludes_of_append
      ("Failed to submit prediction after " ++ toString (N + 1)
        ++ " attempts: ") (ms N) ""
    rwa [strAppend_nil] at h
  · unfold Client.getResult
    rw [Client.getResultGo_conn_exhaust apiKey requestId N w2 nm2 ms2 hkey
      hw2 hnm2 (N + 1) 0 0 ⟨"Error", ""⟩ (by omega) (by omega)]
    rw [Nat.zero_add]
  · rw [Client.getResultExhaustMsg, strAppend_assoc]
    exact strIncludes_of_append _ _ _
  · rw [Client.getResultExhaustMsg]
    have h := strIncludes_of_append
      ("Failed to get result for task " ++ requestId ++ " after "
        ++ toString (N + 1) ++ " attempts: ") (ms2 N) ""
    rwa [strAppend_nil] at h

/-- Witness for conn_retries_exhausted: with maxConnectionRetries = 1 and
both attempts aborting, submit throws the exhaustion error naming 2
attempts after exactly 2 calls. -/
theorem conn_retries_exhausted_witness :
    Client.submit "key" 1 false
      (fun _ => Client.HttpAttempt.err "AbortError" "aborted")
      = ⟨.thrown ⟨"Error", Client.submitExhaustMsg 2 "aborted"⟩, 2⟩ :=
  (conn_retries_exhausted "key" "rid" 1 false
    (fun _ => Client.HttpAttempt.err "AbortError" "aborted")
    (fun _ => Client.HttpAttempt.err "AbortError" "aborted")
    (fun _ => "AbortError") (fun _ => "aborted")
    (fun _ => "AbortError") (fun _ => "aborted")
    (by decide) (fun _ => rfl) (fun _ => Or.inl rfl)
    (fun _ => rfl) (fun _ => Or.inl rfl)).1.1

theorem objGet_objSet_self (o : JsObj) (key : String) (v : JsVal) :
    objGet (objSet o key v) key = some v := by
  induction o with
  | nil => simp [objSet, objGet]
  | cons kv rest ih =>
    obtain ⟨k, w⟩ := kv
    by_cases h : k = key
    · rw [objSet, if_pos h, objGet, if_pos rfl]
    · rw [objSet, if_neg h, objGet, if_neg h]
      exact ih

theorem objGet_objSet_ne (o : JsObj) (key key2 : String) (v : JsVal)
    (h : key ≠ key2) : objGet (objSet o key v) key2 = objGet o key2 := by
  induction o with
  | nil => simp [objSet, objGet, h]
  | cons kv rest ih =>
    obtain ⟨k, w⟩ := kv
    by_cases hk : k = key
    · rw [objSet, if_pos hk, objGet, if_neg h, objGet, if_neg (hk ▸ h)]
    · rw [objSet, if_neg hk, objGet, objGet]
      by_cases hk2 : k = key2
      · rw [if_pos hk2, if_pos hk2]
      · rw [if_neg hk2, if_neg hk2]
        exact ih

theorem Store.get_alloc_lt (s : Store) (o : JsObj) (r : ℕ)
    (h : r < s.objs.length) : (s.alloc o).1.get r = s.get r := by
  show (s.objs ++ [o]).getD r [] = s.objs.getD r []
  rw [List.getD_eq_getElem?_getD, List.getD_eq_getElem?_getD,
    List.getElem?_append_left h]

theorem Store.get_alloc_self (s : Store) (o : JsObj) :
    (s.alloc o).1.get (s.alloc o).2 = o := by
  show (s.objs ++ [o]).getD s.objs.length [] = o
  rw [List.getD_eq_getElem?_getD, List.getElem?_concat_length]
  rfl

theorem Store.get_set_self (s : Store) (r : ℕ) (o : JsObj)
    (h : r < s.objs.length) : (s.set r o).get r = o := by
  show (s.objs.set r o).getD r [] = o
  rw [List.getD_eq_getElem?_getD, List.getElem?_set_eq_of_lt o h]
  rfl

theorem Store.get_set_ne (s : Store) (r r2 : ℕ) (o : JsObj) (h : r ≠ r2) :
    (s.set r o).get r2 = s.get r2 := by
  show (s.objs.set r o).getD r2 [] = s.objs.getD r2 []
  rw [List.getD_eq_getElem?_getD, List.getD_eq_getElem?_getD,
    List.getElem?_set_ne h]

/-- Claim C10: building the request body in Client.submit leaves the
object the caller passed in untouched: the body is a freshly allocated
shallow copy at a different address, the sync-mode marker lands only on
the copy, and the copy agrees with the input on every other key. -/
theorem submit_body_builds_copy (st : Store) (r : ℕ) (sync : Bool)
    (hr : r < st.objs.length) :
    ((submitBuildBody st (some r) sync).1.get r = st.get r)
    ∧ ((submitBuildBody st (some r) sync).2 ≠ r)
    ∧ (sync = true →
        objGet ((submitBuildBody st (some r) sync).1.get
          (submitBuildBody st (some r) sync).2) "enable_sync_mode"
          = some (.bool true))
    ∧ (∀ key, key ≠ "enable_sync_mode" →
        objGet ((submitBuildBody st (some r) sync).1.get
          (submitBuildBody st (some r) sync).2) key
          = objGet (st.get r) key) := by
  have hne : st.objs.length ≠ r := by omega
  cases sync with
  | false =>
    have hdef : submitBuildBody st (some r) false
        = (st.alloc (st.get r)) := rfl
    rw [hdef]
    refine ⟨Store.get_alloc_lt st _ r hr, hne,
      fun h => absurd h (by decide), ?_⟩
    intro key _
    rw [Store.get_alloc_self]
  | true =>
    have hdef : submitBuildBody st (some r) true
        = ((st.alloc (st.get r)).1.set (st.alloc (st.get r)).2
            (objSet ((st.alloc (st.get r)).1.get (st.alloc (st.get r)).2)
              "enable_sync_mode" (.bool true)), (st.alloc (st.get r)).2) := rfl
    rw [hdef]
    have hlen : (st.alloc (st.get r)).2 = st.objs.length := rfl
    have hlt : (st.alloc (st.get r)).2 < (st.alloc (st.get r)).1.objs.length := by
      show st.objs.length < (st.objs ++ [st.get r]).length
      rw [List.length_append]
      simp
    refine ⟨?_, by rw [hlen]; exact hne, ?_, ?_⟩
    · rw [Store.get_set_ne _ _ _ _ (by rw [hlen]; exact hne),
        Store.get_alloc_lt st _ r hr]
    · intro _
      rw [Store.get_set_self _ _ _ hlt, Store.get_alloc_self,
        objGet_objSet_self]
    · intro key hkey
      rw [Store.get_set_self _ _ _ hlt, Store.get_alloc_self,
        objGet_objSet_ne _ _ _ _ (fun h => hkey h.symm)]

/-- Witness for submit_body_builds_copy: a one-object store holding one
field; with sync mode on, the input object is unchanged, and the body is
the copy with the marker appended. -/
theorem submit_body_builds_copy_witness :
    ((submitBuildBody ⟨[[("prompt", JsVal.str "Cat")]]⟩ (some 0) true).1.get 0
      = [("prompt", JsVal.str "Cat")])
    ∧ objGet ((submitBuildBody ⟨[[("prompt", JsVal.str "Cat")]]⟩ (some 0)
        true).1.get (submitBuildBody ⟨[[("prompt", JsVal.str "Cat")]]⟩
        (some 0) true).2) "enable_sync_mode" = some (.bool true) := by
  have h := submit_body_builds_copy ⟨[[("prompt", JsVal.str "Cat")]]⟩ 0 true
    (by decide)
  exact ⟨h.1, h.2.2.1 rfl⟩

/-- Claim C8: on an HTTP-successful upload response, Client.upload returns
exactly the download_url field of the body when the body code is 200 and
the field is present and non-empty; an HTTP-successful response with a
non-200 body code fails with the Upload failed message built from the
body message (Unknown error when empty), and a 200 body without a usable
download_url fails with the distinct no-download_url message. -/
theorem upload_response_contract (apiKey file : String)
    (r : Client.UploadResp) (hkey : apiKey ≠ "") (hok : respOk r.status) :
    (∀ u, r.code = 200 → r.downloadUrl = some u → u ≠ "" →
      Client.upload apiKey file true (.resp r) = (.ok u, 1))
    ∧ (r.code ≠ 200 →
      Client.upload apiKey file true (.resp r)
        = (.error ⟨"Error", "Upload failed: "
            ++ jsOrStr (some r.message) "Unknown error"⟩, 1))
    ∧ (r.code = 200 → (r.downloadUrl = none ∨ r.downloadUrl = some "") →
      Client.upload apiKey file true (.resp r)
        = (.error ⟨"Error", "Upload failed: no download_url in response"⟩,
            1)) := by
  have hbase : Client.upload apiKey file true (.resp r)
      = (if ¬ respOk r.status then
          (.error ⟨"Error", "Failed to upload file: HTTP "
            ++ toString r.status ++ ": " ++ r.text⟩, 1)
        else if r.code ≠ 200 then
          (.error ⟨"Error", "Upload failed: "
            ++ jsOrStr (some r.message) "Unknown error"⟩, 1)
        else
          match r.downloadUrl with
          | some u =>
            if u = "" then
              (.error ⟨"Error", "Upload failed: no download_url in response"⟩,
                1)
            else (.ok u, 1)
          | none =>
            (.error ⟨"Error", "Upload failed: no download_url in response"⟩,
              1)) := by
    rw [Client.upload.eq_def, if_neg hkey, if_neg (by decide : ¬ (true = false))]
  rw [hbase, if_neg (not_not_intro hok)]
  refine ⟨?_, ?_, ?_⟩
  · intro u hcode hurl hu
    rw [if_neg (not_not_intro hcode), hurl]
    simp only []
    rw [if_neg hu]
  · intro hcode
    rw [if_pos hcode]
  · intro hcode hurl
    rw [if_neg (not_not_intro hcode)]
    rcases hurl with h | h
    · rw [h]
    · rw [h]
      simp only []
      exact if_pos trivial

/-- Witness for upload_response_contract: the three response shapes at
concrete values. -/
theorem upload_response_contract_witness :
    Client.upload "key" "/tmp/a.png" true
      (.resp { status := 200, code := 200, downloadUrl := some "https://dl/u" })
      = (.ok "https://dl/u", 1)
    ∧ Client.upload "key" "/tmp/a.png" true
      (.resp { status := 200, code := 500, message := "server error" })
      = (.error ⟨"Error", "Upload failed: server error"⟩, 1)
    ∧ Client.upload "key" "/tmp/a.png" true
      (.resp { status := 200, code := 200 })
      = (.error ⟨"Error", "Upload failed: no download_url in response"⟩, 1) := by
  refine ⟨?_, ?_, ?_⟩
  · exact (upload_response_contract "key" "/tmp/a.png"
      { status := 200, code := 200, downloadUrl := some "https://dl/u" }
      (by decide) (by norm_num [respOk])).1 "https://dl/u" rfl rfl (by decide)
  · exact (upload_response_contract "key" "/tmp/a.png"
      { status := 200, code := 500, message := "server error" }
      (by decide) (by norm_num [respOk])).2.1 (by decide)
  · exact (upload_response_contract "key" "/tmp/a.png"
      { status := 200, code := 200 }
      (by decide) (by norm_num [respOk])).2.2 rfl (Or.inl rfl)

theorem Client.submit_empty_key (N : ℕ) (sync : Bool)
    (w : ℕ → Client.HttpAttempt) :
    Client.submit "" N sync w
      = ⟨.thrown (if N = 0
          then ⟨"Error", Client.submitExhaustMsg 1 Client.apiKeyRequiredMsg⟩
          else ⟨"Error", Client.apiKeyRequiredMsg⟩), 0⟩ := by
  unfold Client.submit
  obtain ⟨f, hf⟩ : ∃ f, N + 1 = f + 1 := ⟨N, rfl⟩
  rw [hf, Client.submitGo]
  have htry : Client.submitTry "" sync (w 0)
      = (.error ⟨"Error", Client.apiKeyRequiredMsg⟩, 0) := by
    rw [Client.submitTry.eq_def, if_pos rfl]
  rw [htry]
  simp only []
  have hnc : ¬ Client.isConnectionError ⟨"Error", Client.apiKeyRequiredMsg⟩ := by
    decide
  rw [if_neg (fun hc => hnc hc.1)]
  by_cases hN : N = 0
  · rw [if_pos (by omega), if_pos hN]
    subst hN
    rfl
  · rw [if_neg (by omega), if_neg hN]

/-- Claim C9: with an empty API key, Client.run and Client.upload both
fail with the missing-API-key configuration error and issue zero HTTP
calls, whatever the remote world would have answered. -/
theorem missing_api_key_no_io (m N : ℕ) (interval : ℚ) (sync : Bool)
    (timeout : Option ℚ) (pollFuel : ℕ) (sw : ℕ → ℕ → Client.HttpAttempt)
    (fw : ℕ → ℕ → JobData) (tw : ℕ → ℕ → ℚ) (file : String)
    (fe : Bool) (ua : Client.UploadAttempt) :
    ((Client.run "" m interval sync N timeout pollFuel sw fw tw).calls = 0
    ∧ ∃ e, (Client.run "" m interval sync N timeout pollFuel sw fw tw).out
        = .error e ∧ strIncludes e.msg "API key is required" = true)
    ∧ Client.upload "" file fe ua
        = (.error ⟨"Error", Client.apiKeyRequiredMsg⟩, 0) := by
  have hbody : Client.runAttemptBody "" N sync timeout pollFuel
      (sw 0) (fw 0) (tw 0)
      = (.error (if N = 0
          then ⟨"Error", Client.submitExhaustMsg 1 Client.apiKeyRequiredMsg⟩
          else ⟨"Error", Client.apiKeyRequiredMsg⟩), 0) := by
    rw [Client.runAttemptBody.eq_def, Client.submit_empty_key]
  have hrun : Client.run "" m interval sync N timeout pollFuel sw fw tw
      = ⟨.error (if N = 0
          then ⟨"Error", Client.submitExhaustMsg 1 Client.apiKeyRequiredMsg⟩
          else ⟨"Error", Client.apiKeyRequiredMsg⟩), 0, []⟩ := by
    unfold Client.run
    obtain ⟨g, hg⟩ : ∃ g, m + 1 = g + 1 := ⟨m, rfl⟩
    rw [hg, Client.runComposedGo, hbody]
    simp only []
    rw [if_pos (Or.inl (by
      by_cases hN : N = 0
      · rw [if_pos hN]; decide
      · rw [if_neg hN]; decide))]
  refine ⟨⟨by rw [hrun], ?_⟩, ?_⟩
  · refine ⟨(if N = 0
      then ⟨"Error", Client.submitExhaustMsg 1 Client.apiKeyRequiredMsg⟩
      else ⟨"Error", Client.apiKeyRequiredMsg⟩), by rw [hrun], ?_⟩
    by_cases hN : N = 0
    · rw [if_pos hN]; decide
    · rw [if_neg hN]; decide
  · rw [Client.upload.eq_def, if_pos rfl]

theorem submitBuildBody_sync_marker (st : Store) (b : JsObj) :
    objGet (((st.alloc b).1.set (st.alloc b).2
      (objSet ((st.alloc b).1.get (st.alloc b).2)
        "enable_sync_mode" (.bool true))).get (st.alloc b).2)
      "enable_sync_mode" = some (.bool true) := by
  have hlt : (st.alloc b).2 < ((st.alloc b).1.objs).length := by
    show st.objs.length < (st.objs ++ [b]).length
    rw [List.length_append]
    simp
  rw [Store.get_set_self _ _ _ hlt, objGet_objSet_self]

/-- Claim C6: with enableSyncMode on, submit sets the enable_sync_mode
marker on the request body and returns the inline result payload rather
than a job id; when that payload reports status failed with id X and
error E, Client.run under the default maxRetries = 0 fails with a message
containing both X and E after exactly one HTTP call in total and no
polling fetch. -/
theorem run_sync_mode (apiKey X E : String) (N : ℕ) (interval : ℚ)
    (timeout : Option ℚ) (pollFuel : ℕ) (sw : ℕ → ℕ → Client.HttpAttempt)
    (fw : ℕ → ℕ → JobData) (tw : ℕ → ℕ → ℚ) (r0 : Client.RespData)
    (hkey : apiKey ≠ "") (hX : X ≠ "") (hE : E ≠ "")
    (hw : sw 0 0 = .resp r0) (hst : r0.status = 200)
    (hdata : r0.data = some ⟨some X, some "failed", none, some E⟩) :
    (∀ st inp, objGet ((submitBuildBody st inp true).1.get
        (submitBuildBody st inp true).2) "enable_sync_mode"
        = some (.bool true))
    ∧ (Client.submit apiKey N true (sw 0)).outcome = .syncRes r0.data
    ∧ (Client.submit apiKey N true (sw 0)).calls = 1
    ∧ Client.run apiKey 0 interval true N timeout pollFuel sw fw tw
        = ⟨.error ⟨"Error", Client.waitFailMsg X E⟩, 1, []⟩
    ∧ strIncludes (Client.waitFailMsg X E) X = true
    ∧ strIncludes (Client.waitFailMsg X E) E = true := by
  have hsub : Client.submit apiKey N true (sw 0)
      = ⟨.syncRes r0.data, 1⟩ := by
    unfold Client.submit
    obtain ⟨f, hf⟩ : ∃ f, N + 1 = f + 1 := ⟨N, rfl⟩
    rw [hf, Client.submitGo]
    have htry : Client.submitTry apiKey true (sw 0 0)
        = (.ok (.syncRes r0.data), 1) := by
      rw [Client.submitTry.eq_def, if_neg hkey, hw]
      simp only []
      rw [if_neg (not_not_intro (by rw [hst]; norm_num [respOk]))]
      exact if_pos trivial
    rw [htry]
  have hmsg : Client.waitFailMsg (jsOrStr (some X) "unknown")
      (jsOrStr (some E) "Unknown error") = Client.waitFailMsg X E := by
    rw [jsOrStr, jsOrStr, if_neg hX, if_neg hE]
  have hbody : Client.runAttemptBody apiKey N true timeout pollFuel
      (sw 0) (fw 0) (tw 0)
      = (.error ⟨"Error", Client.waitFailMsg X E⟩, 1) := by
    rw [Client.runAttemptBody.eq_def, hsub]
    simp only []
    rw [hdata]
    simp only [Option.getD]
    rw [if_neg (fun h =>
      (by decide : ¬ ((some "failed" : Option String) = some "completed")) h)]
    rw [hmsg]
  have hrun : Client.run apiKey 0 interval true N timeout pollFuel sw fw tw
      = ⟨.error ⟨"Error", Client.waitFailMsg X E⟩, 1, []⟩ := by
    unfold Client.run
    rw [Client.runComposedGo, hbody]
    simp only []
    rw [if_pos (Or.inr (le_refl 0))]
  refine ⟨?_, by rw [hsub], by rw [hsub], hrun, ?_, ?_⟩
  · intro st inp
    cases inp with
    | some r => exact submitBuildBody_sync_marker st (st.get r)
    | none => exact submitBuildBody_sync_marker st []
  · rw [Client.waitFailMsg, strAppend_assoc]
    exact strIncludes_of_append _ _ _
  · rw [Client.waitFailMsg]
    have h := strIncludes_of_append
      ("Prediction failed (task_id: " ++ X ++ "): ") E ""
    rwa [strAppend_nil] at h

/-- Witness for run_sync_mode: a concrete inline failed payload with id
task-9 and an error text; run fails with the combined message after one
HTTP call and no poll. -/
theorem run_sync_mode_witness :
    Client.run "key" 0 1 true 2 none 0 exSyncSw (fun _ _ => {})
      (fun _ _ => 0)
      = ⟨.error ⟨"Error",
          Client.waitFailMsg "task-9" "NSFW content detected"⟩, 1, []⟩ :=
  (run_sync_mode "key" "task-9" "NSFW content detected" 2 1 none 0
    exSyncSw (fun _ _ => {}) (fun _ _ => 0)
    ⟨200, "", "", none,
      some ⟨some "task-9", some "failed", none, some "NSFW content detected"⟩⟩
    (by decide) (by decide) (by decide) rfl rfl rfl).2.2.2.1
